import Mathlib

/-!
Verification of the centroid-ranking pipeline in src/encoder.rs of
cheminee-similarity-weights.

Modelling conventions:
- f32 scalars are modelled as exact rationals; the distance values themselves
  (which pass through a square root) are stated over the reals via Real.sqrt.
  All ordering claims are comparison-based, so exact arithmetic captures them.
- The TensorFlow graph built in assign_cluster_labels (Slice, Sub, Square,
  Mean, Sqrt, Neg, TopKV2) is embedded op by op.  The Sub op follows the
  numpy broadcasting rule: a K x D centroid tensor is compatible with the
  1 x 128 slice exactly when D is 128 or D is 1, a K x 1 table being tiled
  across the slice width; any other D fails the session run.  TopKV2 with k
  equal to the input length returns the indices of the values sorted in
  descending order, breaking ties by lower index first; on the negated
  distances that is exactly the unique permutation of 0..K-1 that is sorted
  by the lexicographic relation "smaller distance first, ties by ascending
  index".  Any correct sorting algorithm computes that unique permutation;
  the embedding uses insertion sort, which the kernel can evaluate.
- Fallible Rust code returning eyre results is modelled with an Outcome type;
  a Rust panic (slice index out of bounds, Result unwrap on Err) is a
  distinguished Outcome constructor, separate from an error return.
- The external TensorFlow encoder model (SavedModelBundle plus Graph,
  operation lookup and session run inside EncoderModel.encode) is out of
  scope per the spec and is modelled as an abstract function from the input
  batch to an Outcome of a latent-row batch.
- The lazy-static CENTROIDS global becomes an explicit parameter, and the
  centroid asset file becomes an explicit value: a missing file is none, and
  each line is the list of its comma-separated tokens, each token already
  represented by its f32 parse result (some value, or none when the token is
  not a valid float).
-/

/-- Result of running a piece of fallible Rust code: a normal value, an error
return (eyre Result Err), or a process crash (panic). -/
inductive Outcome (α : Type) where
  | ok : α → Outcome α
  | err : Outcome α
  | panic : Outcome α
deriving DecidableEq, Repr

/-- Hard-coded width of the latent slice taken in assign_cluster_labels:
the size tensor of the Slice op is the constant [1, 128] (encoder.rs line
109). -/
def SLICE_WIDTH : Nat := 128

/-- Sub op on one row pair (encoder.rs lines 115-116): element-wise
difference of the centroid row and the latent slice. -/
def tfSub (c s : List ℚ) : List ℚ := List.zipWith (fun a b => a - b) c s

/-- Square op (encoder.rs lines 118-119): element-wise square. -/
def tfSquare (v : List ℚ) : List ℚ := v.map (fun x => x * x)

/-- Mean op over axis 1 (encoder.rs lines 121-127): the mean of the entries
of one row. -/
def tfMean (v : List ℚ) : ℚ := v.sum / (v.length : ℚ)

/-- Squared root-mean-square distance of one centroid row to the latent
slice: the value fed into the Sqrt op for that row (encoder.rs lines
115-130). -/
def rowDistanceSq (c s : List ℚ) : ℚ := tfMean (tfSquare (tfSub c s))

/-- Slice op with begin [0, 0] and size [1, SLICE_WIDTH] applied to the
1 x cols latent row tensor (encoder.rs lines 102-113): takes the first
SLICE_WIDTH entries, and fails when the row has fewer entries. -/
def lfSlice (lf : List ℚ) : Option (List ℚ) :=
  if SLICE_WIDTH ≤ lf.length then some (lf.take SLICE_WIDTH) else none

/-- Ordering produced by TopKV2 on the negated distances (encoder.rs lines
132-141): index i precedes index j when its distance is smaller, or the
distances are equal and i ≤ j (TopKV2 breaks ties by lower index first). -/
def rankRel (ds : List ℚ) (i j : ℕ) : Prop :=
  ds.getD i 0 < ds.getD j 0 ∨ (ds.getD i 0 = ds.getD j 0 ∧ i ≤ j)

instance rankRelDec (ds : List ℚ) : DecidableRel (rankRel ds) := fun _ _ =>
  inferInstanceAs (Decidable (_ ∨ _))

/-- Indices 0..K-1 of the distance list, sorted ascending by distance with
ties broken by ascending index: the index output of TopKV2 (fetched at
output slot 1) applied to the negated distances with k = K (encoder.rs lines
135-149). -/
def rankIndices (ds : List ℚ) : List ℕ :=
  List.insertionSort (rankRel ds) (List.range ds.length)

/-- Broadcast of one centroid row against the latent slice, following the
numpy broadcasting rule of the TF Sub op: a K x 1 centroid tensor is
compatible with the 1 x W slice, each single-entry row being tiled to width
W; a row whose width already matches is used as is. -/
def bcastRow (c s : List ℚ) : List ℚ :=
  if c.length = 1 then List.replicate s.length c.headI else c

/-- Squared distance the graph computes for one centroid row: the mean
squared difference between the (possibly broadcast) centroid row and the
latent slice. -/
def centroidDistanceSq (c s : List ℚ) : ℚ := rowDistanceSq (bcastRow c s) s

/-- Distance-and-ranking stage of assign_cluster_labels (encoder.rs lines
115-152), applied to the already-sliced latent row: per-centroid distances
through Sub, Square, Mean, Sqrt, then the TopKV2 index ranking.  The Sqrt op
is strictly monotone on the nonnegative mean squared differences, so the
ranking is the one induced by the squared distances. -/
def rankCentroids (centroids : List (List ℚ)) (s : List ℚ) : List ℕ :=
  rankIndices (centroids.map (fun c => centroidDistanceSq c s))

/-- Model of assign_cluster_labels (encoder.rs lines 85-153) on the CENTROIDS
table and one latent row.  The session run fails (Err, mapped to none by the
caller's unwrap_or_else) when the Slice op is out of bounds (latent row
shorter than SLICE_WIDTH), or when the Sub op cannot broadcast the K x D
centroid tensor with the 1 x SLICE_WIDTH slice.  Per the numpy broadcasting
rule the shapes are compatible exactly when D is SLICE_WIDTH or D is 1 (a
K x 1 table is tiled across the slice width); any other D fails the run.
Otherwise the result is the TopKV2 ranking of the per-row distances. -/
def assign_cluster_labels (centroids : List (List ℚ)) (lf_row : List ℚ) :
    Option (List ℕ) :=
  match lfSlice lf_row with
  | none => none
  | some s =>
    if (∀ c ∈ centroids, c.length = SLICE_WIDTH) ∨
        (∀ c ∈ centroids, c.length = 1) then
      some (rankCentroids centroids s)
    else none

/-- Abstract stand-in for the loaded TensorFlow encoder artifact (the
SavedModelBundle, its Graph, the two operation lookups and the session run in
EncoderModel.encode): a function from the input batch to either the latent
row batch or an error (ModelTopologyError or InferenceError). -/
structure EncoderModel where
  runModel : List (List Int) → Outcome (List (List ℚ))

/-- Model of EncoderModel.encode (encoder.rs lines 46-71), instrumented with
the number of times the external encoder artifact is entered.  On an empty
batch, input_data[0] (line 48) is an out-of-bounds index: a crash before the
encoder is ever reached.  Building the input tensor (lines 50-51) fails with
an error when the flattened batch does not have rows * cols entries, where
cols is the width of the first row; only then is the encoder invoked. -/
def EncoderModel.encode (m : EncoderModel) (input_data : List (List Int)) :
    Outcome (List (List ℚ)) × Nat :=
  match input_data with
  | [] => (Outcome.panic, 0)
  | r0 :: rest =>
    if ((r0 :: rest).map List.length).sum = (r0 :: rest).length * r0.length then
      (m.runModel (r0 :: rest), 1)
    else (Outcome.err, 0)

/-- Model of EncoderModel.transform (encoder.rs lines 18-44), instrumented
with the encoder invocation count.  The encoded tensor is split into one row
per chunk of cols entries, cols being its second dimension, i.e. the common
width of the rows; chunks with chunk size 0 is a crash, so a successful
encoder output of width 0 crashes the call (line 23).  Otherwise each row is
ranked by assign_cluster_labels, and a row whose ranking fails is replaced
by the empty list (unwrap_or_else, lines 31-34) without affecting the other
rows.  The per-row tensor rebuild (line 25) always receives exactly cols
values and cannot fail.  A zero-row output has an unobservable column count
in this row representation; it is modelled as a [0, cols > 0] tensor, whose
chunk iteration yields no rows. -/
def EncoderModel.transformInstr (m : EncoderModel) (centroids : List (List ℚ))
    (input_data : List (List Int)) : Outcome (List (List ℕ)) × Nat :=
  let e := m.encode input_data
  (match e.1 with
   | Outcome.panic => Outcome.panic
   | Outcome.err => Outcome.err
   | Outcome.ok lf_rows =>
     match lf_rows with
     | [] => Outcome.ok []
     | l0 :: lrest =>
       if l0.length = 0 then Outcome.panic
       else
         Outcome.ok ((l0 :: lrest).map
           (fun row => (assign_cluster_labels centroids row).getD [])),
   e.2)

/-- Observable result of EncoderModel.transform (encoder.rs lines 18-44). -/
def EncoderModel.transform (m : EncoderModel) (centroids : List (List ℚ))
    (input_data : List (List Int)) : Outcome (List (List ℕ)) :=
  (m.transformInstr centroids input_data).1

/-- Reshape of the flat value list into rows of width w, as performed by
Array2::from_shape_vec with shape (rows, w) (encoder.rs line 167). -/
def chunkRows (rows w : Nat) (flat : List ℚ) : List (List ℚ) :=
  match rows with
  | 0 => []
  | n + 1 => flat.take w :: chunkRows n w (flat.drop w)

/-- Model of load_cluster_centroids (encoder.rs lines 155-174).  The file is
none when read_to_string fails (missing asset: error return via the question
mark).  Otherwise each line is its token list, a token being some q when the
trimmed text parses as a float and none otherwise; from_str(..).unwrap()
(line 162) crashes the process on any none token.  centroid_vec[0] (line
167) is an out-of-bounds index when the file has zero lines: a crash.
Array2::from_shape_vec with shape (rows, cols of first row) returns a
ShapeError (error return) when the total value count differs from
rows * cols, and otherwise reshapes the flat values into rows of that
width. -/
def load_cluster_centroids (file : Option (List (List (Option ℚ)))) :
    Outcome (List (List ℚ)) :=
  match file with
  | none => Outcome.err
  | some lines =>
    if lines.any (fun line => line.any (fun t => t.isNone)) then Outcome.panic
    else
      match lines.map (fun line => line.filterMap id) with
      | [] => Outcome.panic
      | r0 :: rest =>
        if ((r0 :: rest).map List.length).sum = (r0 :: rest).length * r0.length
        then
          Outcome.ok (chunkRows (r0 :: rest).length r0.length
            (r0 :: rest).flatten)
        else Outcome.err

/-! Helper lemmas about the ranking relation and the ranking itself. -/

theorem rankRel_trans (ds : List ℚ) :
    ∀ i j k, rankRel ds i j → rankRel ds j k → rankRel ds i k := by
  intro i j k hij hjk
  rcases hij with h1 | ⟨h1, h1i⟩
  · rcases hjk with h2 | ⟨h2, _⟩
    · exact Or.inl (lt_trans h1 h2)
    · exact Or.inl (h2 ▸ h1)
  · rcases hjk with h2 | ⟨h2, h2i⟩
    · exact Or.inl (h1 ▸ h2)
    · exact Or.inr ⟨h1.trans h2, h1i.trans h2i⟩

theorem rankRel_total (ds : List ℚ) : ∀ i j, rankRel ds i j ∨ rankRel ds j i := by
  intro i j
  rcases lt_trichotomy (ds.getD i 0) (ds.getD j 0) with h | h | h
  · exact Or.inl (Or.inl h)
  · rcases Nat.le_total i j with hle | hle
    · exact Or.inl (Or.inr ⟨h, hle⟩)
    · exact Or.inr (Or.inr ⟨h.symm, hle⟩)
  · exact Or.inr (Or.inl h)

theorem rankIndices_perm (ds : List ℚ) :
    (rankIndices ds).Perm (List.range ds.length) :=
  List.perm_insertionSort _ _

theorem rankIndices_length (ds : List ℚ) :
    (rankIndices ds).length = ds.length := by
  simpa using (rankIndices_perm ds).length_eq

theorem rankIndices_nodup (ds : List ℚ) : (rankIndices ds).Nodup :=
  ((rankIndices_perm ds).symm.nodup (List.nodup_range ds.length))

theorem rankIndices_mem (ds : List ℚ) (k : ℕ) :
    k ∈ rankIndices ds ↔ k < ds.length := by
  rw [(rankIndices_perm ds).mem_iff, List.mem_range]

theorem rankIndices_sorted (ds : List ℚ) :
    List.Pairwise (rankRel ds) (rankIndices ds) := by
  letI : IsTotal ℕ (rankRel ds) := ⟨rankRel_total ds⟩
  letI : IsTrans ℕ (rankRel ds) := ⟨rankRel_trans ds⟩
  exact List.sorted_insertionSort (rankRel ds) (List.range ds.length)

theorem getD_map_of_lt {α β : Type} (f : α → β) (l : List α) (i : ℕ)
    (h : i < l.length) (d : β) (d' : α) :
    (l.map f).getD i d = f (l.getD i d') := by
  rw [List.getD_eq_getElem _ _ (by simpa using h),
    List.getD_eq_getElem _ _ h, List.getElem_map]

theorem rowDistanceSq_nonneg (c s : List ℚ) : 0 ≤ rowDistanceSq c s := by
  unfold rowDistanceSq tfMean
  apply div_nonneg
  · apply List.sum_nonneg
    intro x hx
    unfold tfSquare at hx
    obtain ⟨y, _, rfl⟩ := List.mem_map.mp hx
    exact mul_self_nonneg y
  · exact_mod_cast Nat.zero_le _

theorem assign_eq_some_iff (centroids : List (List ℚ)) (lf : List ℚ)
    (out : List ℕ) :
    assign_cluster_labels centroids lf = some out ↔
      SLICE_WIDTH ≤ lf.length ∧
        ((∀ c ∈ centroids, c.length = SLICE_WIDTH) ∨
          (∀ c ∈ centroids, c.length = 1)) ∧
        out = rankCentroids centroids (lf.take SLICE_WIDTH) := by
  unfold assign_cluster_labels lfSlice
  by_cases hlen : SLICE_WIDTH ≤ lf.length
  · by_cases hall : (∀ c ∈ centroids, c.length = SLICE_WIDTH) ∨
        (∀ c ∈ centroids, c.length = 1)
    · simp [hlen, hall, eq_comm]
    · simp [hlen, hall]
  · simp [hlen]

theorem rankCentroids_length (centroids : List (List ℚ)) (s : List ℚ) :
    (rankCentroids centroids s).length = centroids.length := by
  unfold rankCentroids
  rw [rankIndices_length, List.length_map]

theorem centroidDistanceSq_nonneg (c s : List ℚ) :
    0 ≤ centroidDistanceSq c s := rowDistanceSq_nonneg _ _

theorem centroidDistanceSq_of_full_width (c s : List ℚ)
    (h : c.length = SLICE_WIDTH) : centroidDistanceSq c s = rowDistanceSq c s := by
  unfold centroidDistanceSq bcastRow
  rw [if_neg (by rw [h]; unfold SLICE_WIDTH; omega)]

theorem rankIndices_pairwise_getD (ds : List ℚ) (p q : ℕ)
    (hp : p < (rankIndices ds).length) (hq : q < (rankIndices ds).length)
    (hpq : p < q) :
    ((rankIndices ds).getD p 0 < ds.length ∧
      (rankIndices ds).getD q 0 < ds.length) ∧
    (ds.getD ((rankIndices ds).getD p 0) 0 <
        ds.getD ((rankIndices ds).getD q 0) 0 ∨
      (ds.getD ((rankIndices ds).getD p 0) 0 =
          ds.getD ((rankIndices ds).getD q 0) 0 ∧
        (rankIndices ds).getD p 0 < (rankIndices ds).getD q 0)) := by
  have hrel : rankRel ds ((rankIndices ds).get ⟨p, hp⟩)
      ((rankIndices ds).get ⟨q, hq⟩) :=
    List.pairwise_iff_get.mp (rankIndices_sorted ds) ⟨p, hp⟩ ⟨q, hq⟩ hpq
  have hgp : (rankIndices ds).getD p 0 = (rankIndices ds).get ⟨p, hp⟩ := by
    rw [List.getD_eq_getElem _ _ hp]; rfl
  have hgq : (rankIndices ds).getD q 0 = (rankIndices ds).get ⟨q, hq⟩ := by
    rw [List.getD_eq_getElem _ _ hq]; rfl
  have hbp : (rankIndices ds).get ⟨p, hp⟩ < ds.length := by
    rw [← rankIndices_mem]; exact List.get_mem _ _ _
  have hbq : (rankIndices ds).get ⟨q, hq⟩ < ds.length := by
    rw [← rankIndices_mem]; exact List.get_mem _ _ _
  refine ⟨⟨by rw [hgp]; exact hbp, by rw [hgq]; exact hbq⟩, ?_⟩
  rcases hrel with hlt | ⟨heq, hle⟩
  · left
    rw [hgp, hgq]
    exact hlt
  · right
    have hne : (rankIndices ds).get ⟨p, hp⟩ ≠ (rankIndices ds).get ⟨q, hq⟩ := by
      intro hcontra
      have hfin : (⟨p, hp⟩ : Fin (rankIndices ds).length) = ⟨q, hq⟩ :=
        (rankIndices_nodup ds).get_inj_iff.mp hcontra
      exact (Nat.ne_of_lt hpq) (congrArg Fin.val hfin)
    rw [hgp, hgq]
    exact ⟨heq, lt_of_le_of_ne hle hne⟩

theorem rankCentroids_pairwise (centroids : List (List ℚ)) (s : List ℚ)
    (p q : ℕ) (hp : p < (rankCentroids centroids s).length)
    (hq : q < (rankCentroids centroids s).length) (hpq : p < q) :
    ((rankCentroids centroids s).getD p 0 < centroids.length ∧
      (rankCentroids centroids s).getD q 0 < centroids.length) ∧
    (centroidDistanceSq
        (centroids.getD ((rankCentroids centroids s).getD p 0) []) s <
       centroidDistanceSq
        (centroids.getD ((rankCentroids centroids s).getD q 0) []) s ∨
     (centroidDistanceSq
        (centroids.getD ((rankCentroids centroids s).getD p 0) []) s =
       centroidDistanceSq
        (centroids.getD ((rankCentroids centroids s).getD q 0) []) s ∧
      (rankCentroids centroids s).getD p 0 <
        (rankCentroids centroids s).getD q 0)) := by
  obtain ⟨⟨hbp, hbq⟩, hcase⟩ :=
    rankIndices_pairwise_getD (centroids.map (fun c => centroidDistanceSq c s))
      p q hp hq hpq
  have hbp' : (rankCentroids centroids s).getD p 0 < centroids.length := by
    simpa using hbp
  have hbq' : (rankCentroids centroids s).getD q 0 < centroids.length := by
    simpa using hbq
  have hdp : (centroids.map (fun c => centroidDistanceSq c s)).getD
      ((rankCentroids centroids s).getD p 0) 0 =
      centroidDistanceSq
        (centroids.getD ((rankCentroids centroids s).getD p 0) []) s :=
    getD_map_of_lt _ _ _ hbp' _ _
  have hdq : (centroids.map (fun c => centroidDistanceSq c s)).getD
      ((rankCentroids centroids s).getD q 0) 0 =
      centroidDistanceSq
        (centroids.getD ((rankCentroids centroids s).getD q 0) []) s :=
    getD_map_of_lt _ _ _ hbq' _ _
  refine ⟨⟨hbp', hbq'⟩, ?_⟩
  rcases hcase with hlt | ⟨heq, hidx⟩
  · left
    rw [← hdp, ← hdq]
    exact hlt
  · right
    exact ⟨by rw [← hdp, ← hdq]; exact heq, hidx⟩

set_option maxRecDepth 4000 in
/-- Concrete evaluation: one 128-wide centroid row at the origin, latent row
of 128 zeros; the ranking is the single cluster index 0. -/
theorem assign_one_replicate_eval :
    assign_cluster_labels [List.replicate 128 (0 : ℚ)]
      (List.replicate 128 (0 : ℚ)) = some [0] := by decide

theorem rowDistanceSq_replicate (n : ℕ) (hn : n ≠ 0) (a b : ℚ) :
    rowDistanceSq (List.replicate n a) (List.replicate n b) =
      (a - b) * (a - b) := by
  unfold rowDistanceSq tfSub tfSquare tfMean
  rw [List.zipWith_replicate, min_self, List.map_replicate, List.sum_replicate,
    List.length_replicate, nsmul_eq_mul]
  field_simp

set_option maxRecDepth 4000 in
/-- Concrete evaluation of the broadcast success path: the width-1 centroid
table [[0], [9]] against the constant latent row of 128 tens.  The Sub op
broadcasts each single-entry centroid row across the 128-wide slice, the
squared distances are 100 and 1, and centroid 1 ranks first. -/
theorem assign_broadcast_eval :
    assign_cluster_labels [[(0 : ℚ)], [(9 : ℚ)]]
      (List.replicate 128 (10 : ℚ)) = some [1, 0] := by
  rw [assign_eq_some_iff]
  refine ⟨by simp [SLICE_WIDTH], Or.inr (by simp), ?_⟩
  have htake : (List.replicate 128 (10 : ℚ)).take SLICE_WIDTH =
      List.replicate 128 (10 : ℚ) := by
    simp [SLICE_WIDTH]
  rw [htake]
  unfold rankCentroids
  have hb0 : bcastRow [(0 : ℚ)] (List.replicate 128 (10 : ℚ)) =
      List.replicate 128 (0 : ℚ) := by
    simp [bcastRow]
  have hb9 : bcastRow [(9 : ℚ)] (List.replicate 128 (10 : ℚ)) =
      List.replicate 128 (9 : ℚ) := by
    simp [bcastRow]
  have h0 : centroidDistanceSq [(0 : ℚ)] (List.replicate 128 (10 : ℚ)) =
      100 := by
    unfold centroidDistanceSq
    rw [hb0, rowDistanceSq_replicate 128 (by norm_num)]
    norm_num
  have h9 : centroidDistanceSq [(9 : ℚ)] (List.replicate 128 (10 : ℚ)) =
      1 := by
    unfold centroidDistanceSq
    rw [hb9, rowDistanceSq_replicate 128 (by norm_num)]
    norm_num
  have hds : [[(0 : ℚ)], [(9 : ℚ)]].map
      (fun c => centroidDistanceSq c (List.replicate 128 (10 : ℚ))) =
      [100, 1] := by
    simp only [List.map_cons, List.map_nil, h0, h9]
  rw [hds]
  decide

theorem rowDistanceSq_replicate_vs_cons (a x y : ℚ) (n : ℕ) :
    rowDistanceSq (List.replicate (n + 1) a) (x :: List.replicate n y) =
      ((a - x) * (a - x) + n * ((a - y) * (a - y))) / (n + 1) := by
  unfold rowDistanceSq tfSub tfSquare tfMean
  rw [List.replicate_succ, List.zipWith_cons_cons, List.zipWith_replicate,
    min_self, List.map_cons, List.map_replicate, List.sum_cons,
    List.sum_replicate, List.length_cons, List.length_replicate, nsmul_eq_mul]
  push_cast
  ring

/-- Concrete evaluation of the broadcast path on a non-constant latent row:
for the table [[0], [9]] and the row whose slice is 0 followed by 127 tens,
the broadcast mean squared distances are 12700/128 and 208/128, so centroid
1 ranks first, although the first (truncating) coordinate alone would have
put centroid 0 first. -/
theorem assign_broadcast_noncnst_eval :
    assign_cluster_labels [[(0 : ℚ)], [(9 : ℚ)]]
      ((0 : ℚ) :: List.replicate 127 (10 : ℚ)) = some [1, 0] := by
  rw [assign_eq_some_iff]
  refine ⟨by simp [SLICE_WIDTH], Or.inr (by simp), ?_⟩
  have htake : ((0 : ℚ) :: List.replicate 127 (10 : ℚ)).take SLICE_WIDTH =
      (0 : ℚ) :: List.replicate 127 (10 : ℚ) :=
    List.take_of_length_le (by simp [SLICE_WIDTH])
  rw [htake]
  unfold rankCentroids
  have hb0 : bcastRow [(0 : ℚ)] ((0 : ℚ) :: List.replicate 127 (10 : ℚ)) =
      List.replicate 128 (0 : ℚ) := by
    norm_num [bcastRow]
  have hb9 : bcastRow [(9 : ℚ)] ((0 : ℚ) :: List.replicate 127 (10 : ℚ)) =
      List.replicate 128 (9 : ℚ) := by
    norm_num [bcastRow]
  have h0 : centroidDistanceSq [(0 : ℚ)]
      ((0 : ℚ) :: List.replicate 127 (10 : ℚ)) = 3175 / 32 := by
    unfold centroidDistanceSq
    rw [hb0, show (128 : ℕ) = 127 + 1 by norm_num,
      rowDistanceSq_replicate_vs_cons]
    norm_num
  have h9 : centroidDistanceSq [(9 : ℚ)]
      ((0 : ℚ) :: List.replicate 127 (10 : ℚ)) = 13 / 8 := by
    unfold centroidDistanceSq
    rw [hb9, show (128 : ℕ) = 127 + 1 by norm_num,
      rowDistanceSq_replicate_vs_cons]
    norm_num
  have hds : [[(0 : ℚ)], [(9 : ℚ)]].map
      (fun c => centroidDistanceSq c
        ((0 : ℚ) :: List.replicate 127 (10 : ℚ))) = [3175 / 32, 13 / 8] := by
    simp only [List.map_cons, List.map_nil, h0, h9]
  rw [hds]
  have hrel : ¬ rankRel [3175 / 32, 13 / 8] 0 1 := by
    norm_num [rankRel, List.getD_cons_zero, List.getD_cons_succ]
  unfold rankIndices
  rw [show ([(3175 : ℚ) / 32, 13 / 8] : List ℚ).length = 2 from rfl,
    show List.range 2 = [0, 1] from rfl]
  simp [List.insertionSort, List.orderedInsert, hrel]

/-- C1: for every latent vector row and fixed centroid table, whenever the
per-row ranking operation assign_cluster_labels succeeds, an index at an
earlier position of the output has root-mean-square distance (the distance
the graph computes: square root of the mean squared difference between the
latent slice and the, possibly broadcast, centroid row) at most that of an
index at a later position, and when the two distances are equal the earlier
position holds the smaller cluster index. -/
theorem assign_cluster_labels_sorted_by_distance
    (centroids : List (List ℚ)) (lf : List ℚ) (out : List ℕ) (p q : ℕ)
    (h : assign_cluster_labels centroids lf = some out)
    (hp : p < out.length) (hq : q < out.length) (hpq : p < q) :
    Real.sqrt (centroidDistanceSq (centroids.getD (out.getD p 0) [])
        (lf.take SLICE_WIDTH)) ≤
      Real.sqrt (centroidDistanceSq (centroids.getD (out.getD q 0) [])
        (lf.take SLICE_WIDTH)) ∧
    (Real.sqrt (centroidDistanceSq (centroids.getD (out.getD p 0) [])
        (lf.take SLICE_WIDTH)) =
      Real.sqrt (centroidDistanceSq (centroids.getD (out.getD q 0) [])
        (lf.take SLICE_WIDTH)) →
      out.getD p 0 < out.getD q 0) := by
  obtain ⟨hlen, hall, hout⟩ := (assign_eq_some_iff _ _ _).mp h
  subst hout
  obtain ⟨⟨hbp, hbq⟩, hcase⟩ :=
    rankCentroids_pairwise centroids (lf.take SLICE_WIDTH) p q hp hq hpq
  constructor
  · apply Real.sqrt_le_sqrt
    rcases hcase with hlt | ⟨heq, _⟩
    · exact_mod_cast le_of_lt hlt
    · exact_mod_cast le_of_eq heq
  · intro hsqrt
    rcases hcase with hlt | ⟨heq, hidx⟩
    · exfalso
      have hcast := (Real.sqrt_inj
        (by exact_mod_cast centroidDistanceSq_nonneg _ _)
        (by exact_mod_cast centroidDistanceSq_nonneg _ _)).mp hsqrt
      have : centroidDistanceSq
          (centroids.getD ((rankCentroids centroids
            (lf.take SLICE_WIDTH)).getD p 0) []) (lf.take SLICE_WIDTH) =
          centroidDistanceSq
          (centroids.getD ((rankCentroids centroids
            (lf.take SLICE_WIDTH)).getD q 0) []) (lf.take SLICE_WIDTH) := by
        exact_mod_cast hcast
      exact absurd this (ne_of_lt hlt)
    · exact hidx

/-- Witness for C1 at a concrete input on the broadcast path: the width-1
table [[0], [9]] and the constant latent row of 128 tens; ranking [1, 0],
positions 0 before 1. -/
theorem assign_cluster_labels_sorted_by_distance_witness :
    Real.sqrt (centroidDistanceSq
        ([[(0 : ℚ)], [(9 : ℚ)]].getD (([1, 0] : List ℕ).getD 0 0) [])
        ((List.replicate 128 (10 : ℚ)).take SLICE_WIDTH)) ≤
      Real.sqrt (centroidDistanceSq
        ([[(0 : ℚ)], [(9 : ℚ)]].getD (([1, 0] : List ℕ).getD 1 0) [])
        ((List.replicate 128 (10 : ℚ)).take SLICE_WIDTH)) ∧
    (Real.sqrt (centroidDistanceSq
        ([[(0 : ℚ)], [(9 : ℚ)]].getD (([1, 0] : List ℕ).getD 0 0) [])
        ((List.replicate 128 (10 : ℚ)).take SLICE_WIDTH)) =
      Real.sqrt (centroidDistanceSq
        ([[(0 : ℚ)], [(9 : ℚ)]].getD (([1, 0] : List ℕ).getD 1 0) [])
        ((List.replicate 128 (10 : ℚ)).take SLICE_WIDTH)) →
      ([1, 0] : List ℕ).getD 0 0 < ([1, 0] : List ℕ).getD 1 0) :=
  assign_cluster_labels_sorted_by_distance [[(0 : ℚ)], [(9 : ℚ)]]
    (List.replicate 128 (10 : ℚ)) [1, 0] 0 1
    assign_broadcast_eval (by decide) (by decide) (by decide)

/-- C2: the per-centroid distance of the ranker is the root-mean-square
distance: the square root of the mean, not the sum, of the squared
per-dimension differences between the latent slice and the centroid row,
taken over the row dimensions. -/
theorem rowDistance_is_root_mean_square (c s : List ℚ)
    (h : c.length = s.length) :
    rowDistanceSq c s =
      (List.zipWith (fun a b => (a - b) ^ 2) c s).sum / (c.length : ℚ) ∧
    Real.sqrt (rowDistanceSq c s) =
      Real.sqrt
        (((List.zipWith (fun a b => (a - b) ^ 2) c s).sum / (c.length : ℚ) :
          ℚ)) := by
  have hmain : rowDistanceSq c s =
      (List.zipWith (fun a b => (a - b) ^ 2) c s).sum / (c.length : ℚ) := by
    unfold rowDistanceSq tfMean tfSquare tfSub
    rw [List.map_zipWith]
    have hfun : (List.zipWith (fun x y : ℚ => (x - y) * (x - y)) c s) =
        List.zipWith (fun a b : ℚ => (a - b) ^ 2) c s := by
      simp [pow_two]
    rw [hfun, List.length_zipWith, h, min_self]
  exact ⟨hmain, by rw [hmain]⟩

/-- Witness for C2 at the concrete centroid row [5, 5] and latent slice
[1, 1]. -/
theorem rowDistance_is_root_mean_square_witness :
    rowDistanceSq [5, 5] [1, 1] =
      (List.zipWith (fun a b => (a - b) ^ 2) [(5 : ℚ), 5] [1, 1]).sum /
        (([(5 : ℚ), 5] : List ℚ).length : ℚ) ∧
    Real.sqrt (rowDistanceSq [5, 5] [1, 1]) =
      Real.sqrt
        (((List.zipWith (fun a b => (a - b) ^ 2) [(5 : ℚ), 5] [1, 1]).sum /
          (([(5 : ℚ), 5] : List ℚ).length : ℚ) : ℚ)) :=
  rowDistance_is_root_mean_square [5, 5] [1, 1] (by decide)

/-- C3: for every successfully ranked row the output has length exactly K,
the row count of the centroid table, and is a permutation of 0..K-1: no
duplicates and no omissions. -/
theorem assign_cluster_labels_is_range_perm
    (centroids : List (List ℚ)) (lf : List ℚ) (out : List ℕ)
    (h : assign_cluster_labels centroids lf = some out) :
    out.length = centroids.length ∧
      out.Perm (List.range centroids.length) ∧ out.Nodup ∧
      ∀ k, k ∈ out ↔ k < centroids.length := by
  obtain ⟨_, _, hout⟩ := (assign_eq_some_iff _ _ _).mp h
  subst hout
  unfold rankCentroids
  set ds := centroids.map (fun c => centroidDistanceSq c (lf.take SLICE_WIDTH))
    with hds
  have hdslen : ds.length = centroids.length := by rw [hds, List.length_map]
  refine ⟨by rw [rankIndices_length, hdslen], ?_, rankIndices_nodup ds, ?_⟩
  · rw [← hdslen]; exact rankIndices_perm ds
  · intro k; rw [rankIndices_mem, hdslen]

/-- Witness for C3 at a concrete input: one 128-wide centroid row, ranking
[0]. -/
theorem assign_cluster_labels_is_range_perm_witness :
    ([0] : List ℕ).length = [List.replicate 128 (0 : ℚ)].length ∧
      ([0] : List ℕ).Perm (List.range [List.replicate 128 (0 : ℚ)].length) ∧
      ([0] : List ℕ).Nodup ∧
      ∀ k, k ∈ ([0] : List ℕ) ↔ k < [List.replicate 128 (0 : ℚ)].length :=
  assign_cluster_labels_is_range_perm [List.replicate 128 (0 : ℚ)]
    (List.replicate 128 (0 : ℚ)) [0] assign_one_replicate_eval

theorem encode_cons (m : EncoderModel) (r0 : List Int) (rest : List (List Int)) :
    m.encode (r0 :: rest) =
      if ((r0 :: rest).map List.length).sum = (r0 :: rest).length * r0.length
      then (m.runModel (r0 :: rest), 1) else (Outcome.err, 0) := rfl

/-- C4 counterexample: an encoder call that succeeds with a width-0 output
row makes transform crash at the chunk step (chunk size cols = 0) instead of
returning a result list; the original claim promises a result list for every
batch on which the encoder call succeeds. -/
theorem c4_zero_width_counterexample :
    (EncoderModel.mk (fun _ => Outcome.ok [[]])).runModel [[1]] =
        Outcome.ok [([] : List ℚ)] ∧
      (EncoderModel.mk (fun _ => Outcome.ok [[]])).transform [] [[1]] =
        Outcome.panic ∧
      ∀ res, (EncoderModel.mk (fun _ => Outcome.ok [[]])).transform [] [[1]] ≠
        Outcome.ok res := by
  refine ⟨rfl, rfl, ?_⟩
  intro res hc
  exact Outcome.noConfusion hc

/-- C4 amended: when the encoder call succeeds with output rows of non-zero
width (and the output respects the batch-size shape contract), transform
returns one result per input row in order; a row whose ranking fails
receives the empty list while every row whose ranking succeeds receives its
full, non-empty K-length ranking; a per-row failure never aborts the batch.
A successful encoder output of width 0 instead crashes the call at the
chunk step. -/
theorem transform_isolates_row_failures (m : EncoderModel)
    (centroids : List (List ℚ)) (input : List (List Int))
    (lf : List (List ℚ))
    (h0 : input ≠ [])
    (h1 : (input.map List.length).sum = input.length * input.headI.length)
    (hM : m.runModel input = Outcome.ok lf)
    (hlen : lf.length = input.length)
    (hw : lf.headI.length ≠ 0)
    (hK : centroids ≠ []) :
    ∃ res, m.transform centroids input = Outcome.ok res ∧
      res.length = input.length ∧
      ∀ i, i < res.length →
        ((∀ labels,
            assign_cluster_labels centroids (lf.getD i []) = some labels →
              res.getD i [] = labels ∧ labels.length = centroids.length ∧
                labels ≠ []) ∧
          (assign_cluster_labels centroids (lf.getD i []) = none →
            res.getD i [] = [])) := by
  obtain ⟨r0, rest, rfl⟩ := List.exists_cons_of_ne_nil h0
  have hlf0 : lf ≠ [] := by
    intro hcontra
    rw [hcontra] at hlen
    exact List.cons_ne_nil r0 rest (List.length_eq_zero.mp hlen.symm)
  obtain ⟨l0, lrest, rfl⟩ := List.exists_cons_of_ne_nil hlf0
  have hl0 : ¬ l0.length = 0 := by simpa using hw
  have henc : m.encode (r0 :: rest) = (Outcome.ok (l0 :: lrest), 1) := by
    rw [encode_cons, if_pos (by simpa using h1), hM]
  refine ⟨(l0 :: lrest).map
      (fun row => (assign_cluster_labels centroids row).getD []),
    ?_, ?_, ?_⟩
  · unfold EncoderModel.transform EncoderModel.transformInstr
    simp only [henc, hl0, if_false, ite_false]
  · rw [List.length_map, hlen]
  · intro i hi
    rw [List.length_map] at hi
    have hres : ((l0 :: lrest).map
        (fun row => (assign_cluster_labels centroids row).getD [])).getD i [] =
        (assign_cluster_labels centroids ((l0 :: lrest).getD i [])).getD [] :=
      getD_map_of_lt _ _ _ hi _ _
    constructor
    · intro labels hlabels
      obtain ⟨_, _, hout⟩ := (assign_eq_some_iff _ _ _).mp hlabels
      refine ⟨by rw [hres, hlabels]; rfl, by rw [hout, rankCentroids_length],
        ?_⟩
      intro hnil
      apply hK
      have : labels.length = 0 := by rw [hnil]; rfl
      rw [hout, rankCentroids_length] at this
      exact List.length_eq_zero.mp this
    · intro hnone
      rw [hres, hnone]
      rfl

/-- Witness for C4 at a concrete input: a two-row batch whose second latent
row is too short to slice, against a one-row centroid table. -/
theorem transform_isolates_row_failures_witness :
    ∃ res,
      (EncoderModel.mk (fun _ =>
          Outcome.ok [List.replicate 128 (0 : ℚ), [0]])).transform
        [List.replicate 128 (0 : ℚ)] [[0], [0]] = Outcome.ok res ∧
      res.length = ([[0], [0]] : List (List Int)).length ∧
      ∀ i, i < res.length →
        ((∀ labels,
            assign_cluster_labels [List.replicate 128 (0 : ℚ)]
              (([List.replicate 128 (0 : ℚ), [0]]).getD i []) = some labels →
              res.getD i [] = labels ∧
                labels.length = [List.replicate 128 (0 : ℚ)].length ∧
                labels ≠ []) ∧
          (assign_cluster_labels [List.replicate 128 (0 : ℚ)]
              (([List.replicate 128 (0 : ℚ), [0]]).getD i []) = none →
            res.getD i [] = [])) :=
  transform_isolates_row_failures
    (EncoderModel.mk (fun _ => Outcome.ok [List.replicate 128 (0 : ℚ), [0]]))
    [List.replicate 128 (0 : ℚ)] [[0], [0]]
    [List.replicate 128 (0 : ℚ), [0]]
    (by simp) (by decide) rfl rfl (by simp [SLICE_WIDTH]) (by simp)

/-- C8: on a well-formed non-empty batch the external encoder is entered
exactly once for the whole batch, and when that single encode step fails the
whole transform call returns an error, producing no per-row results. -/
theorem transform_invokes_encoder_once (m : EncoderModel)
    (centroids : List (List ℚ)) (input : List (List Int))
    (h0 : input ≠ [])
    (h1 : (input.map List.length).sum = input.length * input.headI.length) :
    (m.transformInstr centroids input).2 = 1 ∧
      (m.runModel input = Outcome.err →
        m.transform centroids input = Outcome.err) := by
  obtain ⟨r0, rest, rfl⟩ := List.exists_cons_of_ne_nil h0
  have henc : m.encode (r0 :: rest) = (m.runModel (r0 :: rest), 1) := by
    rw [encode_cons, if_pos (by simpa using h1)]
  constructor
  · unfold EncoderModel.transformInstr
    simp only [henc]
  · intro hMerr
    unfold EncoderModel.transform EncoderModel.transformInstr
    simp only [henc, hMerr]

/-- Witness for C8 at a concrete input: a one-row batch with an encoder that
always fails. -/
theorem transform_invokes_encoder_once_witness :
    ((EncoderModel.mk (fun _ => Outcome.err)).transformInstr [] [[1]]).2 = 1 ∧
      ((EncoderModel.mk (fun _ => Outcome.err)).runModel [[1]] = Outcome.err →
        (EncoderModel.mk (fun _ => Outcome.err)).transform [] [[1]] =
          Outcome.err) :=
  transform_invokes_encoder_once (EncoderModel.mk (fun _ => Outcome.err))
    [] [[1]] (by simp) (by decide)

/-- C9: calling transform with an empty batch crashes the process
(out-of-bounds index into the first input row inside encode) instead of
returning an error result or an empty result list. -/
theorem transform_empty_batch_crashes (m : EncoderModel)
    (centroids : List (List ℚ)) :
    m.transform centroids [] = Outcome.panic ∧
      m.transform centroids [] ≠ Outcome.err ∧
      ∀ res, m.transform centroids [] ≠ Outcome.ok res := by
  have h : m.transform centroids [] = Outcome.panic := rfl
  refine ⟨h, by rw [h]; intro hc; exact Outcome.noConfusion hc, ?_⟩
  intro res hc
  rw [h] at hc
  exact Outcome.noConfusion hc

/-- C10: loading a centroid asset file that exists but has zero lines
crashes the process (out-of-bounds index into the first parsed row) instead
of returning an error result. -/
theorem load_empty_asset_crashes :
    load_cluster_centroids (some []) = Outcome.panic ∧
      load_cluster_centroids (some []) ≠ Outcome.err ∧
      ∀ t, load_cluster_centroids (some []) ≠ Outcome.ok t := by
  have h : load_cluster_centroids (some []) = Outcome.panic := rfl
  refine ⟨h, by rw [h]; intro hc; exact Outcome.noConfusion hc, ?_⟩
  intro t hc
  rw [h] at hc
  exact Outcome.noConfusion hc

/-- C5 counterexample: with centroids [[0,0],[10,10],[5,5]] and latent slice
[1,1], the root-mean-square distance to centroid 2 is exactly 4, not
approximately 5.66 as the claim states (it misses even a generous tolerance
of one half). -/
theorem c5_distance_counterexample :
    Real.sqrt (rowDistanceSq [5, 5] [1, 1]) = 4 ∧
      ¬ |(4 : ℝ) - 5.66| ≤ 1 / 2 := by
  have h16 : rowDistanceSq [5, 5] [1, 1] = 16 := by
    norm_num [rowDistanceSq, tfSub, tfSquare, tfMean]
  constructor
  · rw [h16, show ((16 : ℚ) : ℝ) = 4 ^ 2 by norm_num,
      Real.sqrt_sq (by norm_num : (0 : ℝ) ≤ 4)]
  · rw [abs_of_neg (by norm_num : (4 : ℝ) - 5.66 < 0)]
    norm_num

/-- C5 amended: with K=3 centroids [[0,0],[10,10],[5,5]] and latent slice
[1,1], the root-mean-square distances are exactly 1, 9 and 4 for centroids
0, 1 and 2 (not approximately 9.19 and 5.66 for centroids 1 and 2), and the
ranking of the distance-and-TopK stage is [0, 2, 1]. -/
theorem c5_example_ranking :
    rankCentroids [[0, 0], [10, 10], [5, 5]] [1, 1] = [0, 2, 1] ∧
      Real.sqrt (rowDistanceSq [0, 0] [1, 1]) = 1 ∧
      Real.sqrt (rowDistanceSq [10, 10] [1, 1]) = 9 ∧
      Real.sqrt (rowDistanceSq [5, 5] [1, 1]) = 4 := by
  have hds : ([[0, 0], [10, 10], [5, 5]] : List (List ℚ)).map
      (fun c => centroidDistanceSq c [1, 1]) = [1, 81, 16] := by
    norm_num [centroidDistanceSq, bcastRow, rowDistanceSq, tfSub, tfSquare,
      tfMean]
  refine ⟨?_, ?_, ?_, ?_⟩
  · unfold rankCentroids
    rw [hds]
    decide
  · have h1 : rowDistanceSq [0, 0] [1, 1] = 1 := by
      norm_num [rowDistanceSq, tfSub, tfSquare, tfMean]
    rw [h1, show ((1 : ℚ) : ℝ) = 1 ^ 2 by norm_num,
      Real.sqrt_sq (by norm_num : (0 : ℝ) ≤ 1)]
  · have h81 : rowDistanceSq [10, 10] [1, 1] = 81 := by
      norm_num [rowDistanceSq, tfSub, tfSquare, tfMean]
    rw [h81, show ((81 : ℚ) : ℝ) = 9 ^ 2 by norm_num,
      Real.sqrt_sq (by norm_num : (0 : ℝ) ≤ 9)]
  · have h16 : rowDistanceSq [5, 5] [1, 1] = 16 := by
      norm_num [rowDistanceSq, tfSub, tfSquare, tfMean]
    rw [h16, show ((16 : ℚ) : ℝ) = 4 ^ 2 by norm_num,
      Real.sqrt_sq (by norm_num : (0 : ℝ) ≤ 4)]

set_option maxRecDepth 4000 in
/-- C6 counterexample: the slice taken before distance computation always
has the hard-coded width 128, regardless of the loaded table: with the
width-2 table [[0,0],[10,10],[5,5]], the slice of a 200-entry latent row has
width 128, not 2, and ranking against that table fails for every latent row
instead of slicing to width 2. -/
theorem c6_slice_width_counterexample :
    (lfSlice (List.replicate 200 (0 : ℚ))).map List.length = some 128 ∧
      ([[0, 0], [10, 10], [5, 5]] : List (List ℚ)).map List.length =
        [2, 2, 2] ∧
      (128 : ℕ) ≠ 2 ∧
      assign_cluster_labels [[0, 0], [10, 10], [5, 5]]
        (List.replicate 200 (0 : ℚ)) = none := by
  refine ⟨by decide, by decide, by decide, by decide⟩

/-- C6 amended: the slice width is the hard-coded constant SLICE_WIDTH =
128, not a value derived from the centroid table's column count; whenever
ranking succeeds the slice taken has width SLICE_WIDTH while the table width
is either SLICE_WIDTH or 1 (the broadcast case), so the slice width matches
the table width only for tables that are exactly 128 columns wide. -/
theorem c6_slice_width_is_hardcoded (centroids : List (List ℚ))
    (lf : List ℚ) (out : List ℕ)
    (h : assign_cluster_labels centroids lf = some out) :
    (lfSlice lf).map List.length = some SLICE_WIDTH ∧
      ((∀ c ∈ centroids, c.length = SLICE_WIDTH) ∨
        (∀ c ∈ centroids, c.length = 1)) := by
  obtain ⟨hlen, hall, _⟩ := (assign_eq_some_iff _ _ _).mp h
  refine ⟨?_, hall⟩
  unfold lfSlice
  rw [if_pos hlen]
  simp [List.length_take, Nat.min_eq_left hlen]

/-- Witness for the amended C6 at a concrete input: one 128-wide centroid
row and the all-zero 128-entry latent row. -/
theorem c6_slice_width_is_hardcoded_witness :
    (lfSlice (List.replicate 128 (0 : ℚ))).map List.length =
        some SLICE_WIDTH ∧
      ((∀ c ∈ [List.replicate 128 (0 : ℚ)], c.length = SLICE_WIDTH) ∨
        (∀ c ∈ [List.replicate 128 (0 : ℚ)], c.length = 1)) :=
  c6_slice_width_is_hardcoded [List.replicate 128 (0 : ℚ)]
    (List.replicate 128 (0 : ℚ)) [0] assign_one_replicate_eval

theorem load_some_eq (lines : List (List (Option ℚ))) :
    load_cluster_centroids (some lines) =
      if lines.any (fun line => line.any (fun t => t.isNone)) then
        Outcome.panic
      else
        match lines.map (fun line => line.filterMap id) with
        | [] => Outcome.panic
        | r0 :: rest =>
          if ((r0 :: rest).map List.length).sum =
              (r0 :: rest).length * r0.length then
            Outcome.ok (chunkRows (r0 :: rest).length r0.length
              (r0 :: rest).flatten)
          else Outcome.err := rfl

/-- C7 counterexample: a file whose lines have the wrong (inconsistent)
column counts 2, 1, 3 loads successfully, silently misaligned into a 3 x 2
table, instead of failing; and a file holding a token that is not a valid
float crashes the process (unwrap) instead of returning an error result. -/
theorem c7_load_error_counterexample :
    load_cluster_centroids
        (some [[some 1, some 2], [some 3], [some 4, some 5, some 6]]) =
      Outcome.ok [[1, 2], [3, 4], [5, 6]] ∧
      load_cluster_centroids (some [[some 1, none]]) = Outcome.panic := by
  exact ⟨by decide, by decide⟩

/-- C7 amended: loading returns an error result when the asset file is
missing, and when every token parses but the total value count differs from
rows times the first row's width (in particular for most wrong-width lines);
a token that is not a valid float crashes the process instead of returning
an error, and wrong-width lines whose totals happen to match load
successfully. -/
theorem c7_load_failure_modes :
    load_cluster_centroids none = Outcome.err ∧
      (∀ lines, (∃ line ∈ lines, (none : Option ℚ) ∈ line) →
        load_cluster_centroids (some lines) = Outcome.panic) ∧
      (∀ lines r0 rest,
        lines.map (fun line => line.filterMap id) = r0 :: rest →
        (∀ line ∈ lines, ∀ t ∈ line, t ≠ (none : Option ℚ)) →
        ((r0 :: rest).map List.length).sum ≠ (r0 :: rest).length * r0.length →
        load_cluster_centroids (some lines) = Outcome.err) := by
  refine ⟨rfl, ?_, ?_⟩
  · intro lines hex
    obtain ⟨line, hline, hnone⟩ := hex
    rw [load_some_eq, if_pos]
    rw [List.any_eq_true]
    exact ⟨line, hline, by rw [List.any_eq_true]; exact ⟨none, hnone, rfl⟩⟩
  · intro lines r0 rest hmap hnotnone hsum
    have hany : lines.any (fun line => line.any (fun t => t.isNone)) = false := by
      rw [List.any_eq_false]
      intro line hline
      rw [Bool.not_eq_true, List.any_eq_false]
      intro t ht
      rw [Bool.not_eq_true]
      cases t with
      | none => exact absurd rfl (hnotnone line hline none ht)
      | some a => rfl
    rw [load_some_eq, if_neg (by rw [hany]; exact Bool.false_ne_true), hmap]
    show (if ((r0 :: rest).map List.length).sum =
        (r0 :: rest).length * r0.length then
        Outcome.ok (chunkRows (r0 :: rest).length r0.length
          (r0 :: rest).flatten)
      else Outcome.err) = Outcome.err
    rw [if_neg hsum]

/-- Witness for the amended C7 at a concrete input: two all-parsing lines of
widths 1 and 2, whose total of 3 values differs from 2 rows times width 1. -/
theorem c7_load_failure_modes_witness :
    load_cluster_centroids (some [[some 1], [some 2, some 3]]) =
      Outcome.err :=
  c7_load_failure_modes.2.2 [[some 1], [some 2, some 3]] [1] [[2, 3]]
    (by decide) (by decide) (by decide)

/-- Witness for C9 at a concrete encoder model and centroid table. -/
theorem transform_empty_batch_crashes_witness :
    (EncoderModel.mk (fun _ => Outcome.err)).transform [] [] =
        Outcome.panic ∧
      (EncoderModel.mk (fun _ => Outcome.err)).transform [] [] ≠
        Outcome.err ∧
      ∀ res, (EncoderModel.mk (fun _ => Outcome.err)).transform [] [] ≠
        Outcome.ok res :=
  transform_empty_batch_crashes (EncoderModel.mk (fun _ => Outcome.err)) []

example : rankIndices [1, 81, 16] = [0, 2, 1] := by decide

example : rankIndices [5, 5, 3] = [2, 0, 1] := by decide

example :
    load_cluster_centroids
      (some [[some 1, some 2], [some 3, some 4]]) =
    Outcome.ok [[1, 2], [3, 4]] := by decide
